import Mathlib

/-!
Verification development for the bagibagi → Roblox bridge server
(`server.js`). The server's pure logic is shallowly embedded below:

* a byte-level model of HMAC-SHA256 with hex output, standing in for
  Node's `crypto.createHmac("sha256", key).update(body).digest("hex")`
  (bytes are `Nat` values `< 256`; strings are taken as their code
  points, which agrees with UTF-8 on the ASCII inputs used here);
* `verifyBagibagiSignature`, `extractAtUsername`, the donor-key
  derivation and the `INSERT … ON CONFLICT DO UPDATE` upsert of
  `upsertDonation`, the webhook handler's control flow, and the
  `GET /roblox/get-player-total/:username` lookup;
* the delivery queue described by the specification (the queue and the
  poll endpoint have no counterpart in `server.js`; they are modelled
  from the specification text).

JavaScript `null`/`undefined` are modelled as `Option.none`, and the
truthiness of `x || y` on strings (empty string is falsy) by `jsOr`.
-/

/-- Truncate to a 32-bit word, as JavaScript/SQL-free modular arithmetic. -/
def w32 (n : Nat) : Nat := n % 4294967296

/-- Right rotation of a 32-bit word (input assumed `< 2^32`). -/
def rotr32 (n x : Nat) : Nat := (x >>> n) ||| w32 (x <<< (32 - n))

/-- SHA-256 `Ch(e,f,g)`. -/
def sha2Ch (e f g : Nat) : Nat := (e &&& f) ^^^ ((e ^^^ 4294967295) &&& g)

/-- SHA-256 `Maj(a,b,c)`. -/
def sha2Maj (a b c : Nat) : Nat := (a &&& b) ^^^ (a &&& c) ^^^ (b &&& c)

/-- SHA-256 `Σ₀`. -/
def bigSigma0 (x : Nat) : Nat := rotr32 2 x ^^^ rotr32 13 x ^^^ rotr32 22 x

/-- SHA-256 `Σ₁`. -/
def bigSigma1 (x : Nat) : Nat := rotr32 6 x ^^^ rotr32 11 x ^^^ rotr32 25 x

/-- SHA-256 `σ₀`. -/
def smallSigma0 (x : Nat) : Nat := rotr32 7 x ^^^ rotr32 18 x ^^^ (x >>> 3)

/-- SHA-256 `σ₁`. -/
def smallSigma1 (x : Nat) : Nat := rotr32 17 x ^^^ rotr32 19 x ^^^ (x >>> 10)

/-- The 64 SHA-256 round constants of FIPS 180-4 §4.2.2, in decimal. -/
def sha2K : List Nat :=
  [1116352408, 1899447441, 3049323471, 3921009573, 961987163, 1508970993,
   2453635748, 2870763221, 3624381080, 310598401, 607225278, 1426881987,
   1925078388, 2162078206, 2614888103, 3248222580, 3835390401, 4022224774,
   264347078, 604807628, 770255983, 1249150122, 1555081692, 1996064986,
   2554220882, 2821834349, 2952996808, 3210313671, 3336571891, 3584528711,
   113926993, 338241895, 666307205, 773529912, 1294757372, 1396182291,
   1695183700, 1986661051, 2177026350, 2456956037, 2730485921, 2820302411,
   3259730800, 3345764771, 3516065817, 3600352804, 4094571909, 275423344,
   430227734, 506948616, 659060556, 883997877, 958139571, 1322822218,
   1537002063, 1747873779, 1955562222, 2024104815, 2227730452, 2361852424,
   2428436474, 2756734187, 3204031479, 3329325298]

/-- The eight-word SHA-256 working state. -/
structure Hash8 where
  a : Nat
  b : Nat
  c : Nat
  d : Nat
  e : Nat
  f : Nat
  g : Nat
  h : Nat
deriving DecidableEq

/-- SHA-256 initial hash value (FIPS 180-4 §5.3.3), in decimal. -/
def sha2H0 : Hash8 :=
  ⟨1779033703, 3144134277, 1013904242, 2773480762,
   1359893119, 2600822924, 528734635, 1541459225⟩

/-- One SHA-256 round; `kw` is the round constant plus schedule word. -/
def sha2Round (st : Hash8) (kw : Nat) : Hash8 :=
  let t1 := w32 (st.h + bigSigma1 st.e + sha2Ch st.e st.f st.g + kw)
  let t2 := w32 (bigSigma0 st.a + sha2Maj st.a st.b st.c)
  ⟨w32 (t1 + t2), st.a, st.b, st.c, w32 (st.d + t1), st.e, st.f, st.g⟩

/-- Big-endian 32-bit word from four bytes. -/
def beWord (bs : List Nat) : Nat :=
  bs.foldl (fun acc b => acc * 256 + b) 0

/-- Extend a 16-word schedule by `n` further words. -/
def extendW : Nat → List Nat → List Nat
  | 0, ws => ws
  | n + 1, ws =>
      let m := ws.length
      let next := w32 (smallSigma1 (ws.getD (m - 2) 0) + ws.getD (m - 7) 0 +
        smallSigma0 (ws.getD (m - 15) 0) + ws.getD (m - 16) 0)
      extendW n (ws ++ [next])

/-- The 64-word message schedule of one 64-byte block. -/
def messageSchedule (block : List Nat) : List Nat :=
  extendW 48 ((List.range 16).map fun i => beWord ((block.drop (4 * i)).take 4))

/-- Componentwise 32-bit addition of hash states. -/
def addHash8 (x y : Hash8) : Hash8 :=
  ⟨w32 (x.a + y.a), w32 (x.b + y.b), w32 (x.c + y.c), w32 (x.d + y.d),
   w32 (x.e + y.e), w32 (x.f + y.f), w32 (x.g + y.g), w32 (x.h + y.h)⟩

/-- SHA-256 compression of one 64-byte block. -/
def compressBlock (st : Hash8) (block : List Nat) : Hash8 :=
  addHash8 st ((List.zipWith (· + ·) sha2K (messageSchedule block)).foldl sha2Round st)

/-- Big-endian serialization of `n` into `k` bytes. -/
def natToBytesBE (k n : Nat) : List Nat :=
  (List.range k).map fun i => (n >>> (8 * (k - 1 - i))) % 256

/-- FIPS 180-4 §5.1.1 padding: `0x80`, zeros, 64-bit big-endian bit length. -/
def sha2Pad (msg : List Nat) : List Nat :=
  let r := (msg.length + 1) % 64
  msg ++ (128 :: List.replicate ((120 - r) % 64) 0) ++ natToBytesBE 8 (msg.length * 8)

/-- Serialize the final state to the 32-byte digest. -/
def digestBytes (st : Hash8) : List Nat :=
  natToBytesBE 4 st.a ++ natToBytesBE 4 st.b ++ natToBytesBE 4 st.c ++
  natToBytesBE 4 st.d ++ natToBytesBE 4 st.e ++ natToBytesBE 4 st.f ++
  natToBytesBE 4 st.g ++ natToBytesBE 4 st.h

/-- SHA-256 of a byte string. -/
def sha256Bytes (msg : List Nat) : List Nat :=
  let padded := sha2Pad msg
  digestBytes (((List.range (padded.length / 64)).map
    fun i => ((padded.drop (64 * i)).take 64)).foldl compressBlock sha2H0)

/-- HMAC-SHA256 (FIPS 198-1) over byte strings. -/
def hmacSha256 (key msg : List Nat) : List Nat :=
  let k0 := if 64 < key.length then sha256Bytes key else key
  let kp := k0 ++ List.replicate (64 - k0.length) 0
  sha256Bytes ((kp.map (· ^^^ 0x5c)) ++ sha256Bytes ((kp.map (· ^^^ 0x36)) ++ msg))

/-- Lower-case hexadecimal digit. -/
def hexDigit (n : Nat) : Char :=
  if n < 10 then Char.ofNat (48 + n) else Char.ofNat (87 + n % 16)

/-- Lower-case hex rendering of a byte string, two digits per byte. -/
def hexOfBytes : List Nat → List Char
  | [] => []
  | b :: bs => hexDigit (b / 16 % 16) :: hexDigit (b % 16) :: hexOfBytes bs

/-- Code points of a string, its byte encoding for ASCII data. -/
def strBytes (s : String) : List Nat := s.data.map Char.toNat

/-- Model of Node's `createHmac("sha256", key).update(msg).digest("hex")`. -/
def hmacSha256Hex (key msg : String) : String :=
  String.mk (hexOfBytes (hmacSha256 (strBytes key) (strBytes msg)))

/-- Model of `verifyBagibagiSignature(bodyString, signatureHex)`: returns
`false` when no token is configured (empty string is falsy), otherwise
compares the hex HMAC digest with the supplied signature. -/
def verifyBagibagiSignature (token bodyString signatureHex : String) : Bool :=
  if token = "" then false
  else hmacSha256Hex token bodyString == signatureHex

/-- JavaScript `x || y` on nullable strings: empty string is falsy. -/
def jsOr (x y : Option String) : Option String :=
  match x with
  | some s => if s = "" then y else some s
  | none => y

/-- A character of the class `[A-Za-z0-9_.]` of the mention regex. -/
def isHandleChar (c : Char) : Bool :=
  c.isAlpha || c.isDigit || c = '_' || c = '.'

/-- Left-to-right scan of the mention regex of `extractAtUsername`:
at each position an `@` followed by at least one class character matches,
capturing greedily up to 20 class characters. -/
def extractScan : List Char → Option String
  | [] => none
  | c :: rest =>
      if c = '@' then
        let h := (rest.takeWhile isHandleChar).take 20
        if h.isEmpty then extractScan rest else some (String.mk h)
      else extractScan rest

/-- Model of `extractAtUsername(message)`: `null` for a missing or empty
(falsy) message, else the first captured mention. -/
def extractAtUsername (message : Option String) : Option String :=
  match message with
  | none => none
  | some s => if s = "" then none else extractScan s.data

/-- The webhook request body as `upsertDonation` reads it. Absent JSON
fields are `none`; `amount` is a number field (integer model). -/
structure Payload where
  transaction_id : Option String
  name : Option String
  bagibagi_name : Option String
  amount : Option Int
  message : Option String
  created_at : Option String
  donor_key : Option String
deriving DecidableEq

/-- The `name || bagibagi_name || null` label of `upsertDonation`. -/
def bagibagiNameOf (p : Payload) : Option String :=
  jsOr p.name (jsOr p.bagibagi_name none)

/-- The `Number(payload.amount || 0)` coercion (integer model). -/
def amountOf (p : Payload) : Int := p.amount.getD 0

/-- The `payload.message || null` field. -/
def lastMsgOf (p : Payload) : Option String := jsOr p.message none

/-- The `payload.created_at ? iso(created_at) : iso(now)` field; ISO
normalization of a timestamp string is modelled as the identity. -/
def lastTimeOf (now : String) (p : Payload) : String :=
  match jsOr p.created_at none with
  | some t => t
  | none => now

/-- Rendering of `payload.transaction_id` inside a template literal:
an absent field prints as the string `undefined`. -/
def txidString (p : Payload) : String := p.transaction_id.getD "undefined"

/-- The donor key of `upsertDonation`:
`atUsername ? user:atUsername : (payload.donor_key || bagibagi:txid)`. -/
def donorKeyOf (p : Payload) : String :=
  match extractAtUsername (lastMsgOf p) with
  | some u => "user:" ++ u
  | none =>
      match jsOr p.donor_key none with
      | some d => d
      | none => "bagibagi:" ++ txidString p

/-- One row of the `donations` table. -/
structure Row where
  donor_key : String
  roblox_username : Option String
  roblox_display_name : Option String
  bagibagi_name : Option String
  total_rp : Int
  last_donation_rp : Int
  last_message : Option String
  last_time : String
deriving DecidableEq

/-- The table, ordered as Postgres happens to return unordered scans:
the unique constraint on `donor_key` means at most one row matches it. -/
abbrev Store := List Row

/-- The `SELECT … WHERE donor_key = $1 LIMIT 1` cache read. -/
def cachedFor (st : Store) (k : String) : Option Row :=
  List.find? (fun r => r.donor_key = k) st

/-- Result of the Roblox users API lookup (`lookupRobloxUsername`). -/
structure RobloxInfo where
  id : Option Nat
  name : Option String
  displayName : Option String
deriving DecidableEq

/-- The `(robloxUsernameToStore, robloxDisplayNameToStore)` pair computed
by `upsertDonation` from the extracted mention, the cached row and the
remote lookup (the external call is a parameter `lookup`). -/
def robloxToStore (lookup : String → Option RobloxInfo) (st : Store)
    (p : Payload) : Option String × Option String :=
  match extractAtUsername (lastMsgOf p) with
  | none => (none, none)
  | some atU =>
      match cachedFor st (donorKeyOf p) with
      | some c =>
          if c.roblox_username = some atU ∧ (jsOr c.roblox_display_name none).isSome then
            (some atU, c.roblox_display_name)
          else
            (some atU, (lookup atU).bind fun info => jsOr info.displayName none)
      | none => (some atU, (lookup atU).bind fun info => jsOr info.displayName none)

/-- SQL `COALESCE` on two nullable values. -/
def coalesce (x y : Option String) : Option String :=
  match x with
  | some v => some v
  | none => y

/-- The `DO UPDATE SET` arm of the upsert: `EXCLUDED` is `cand`. -/
def mergeRow (r cand : Row) : Row :=
  { donor_key := r.donor_key
    roblox_username := coalesce cand.roblox_username r.roblox_username
    roblox_display_name := coalesce cand.roblox_display_name r.roblox_display_name
    bagibagi_name := coalesce cand.bagibagi_name r.bagibagi_name
    total_rp := r.total_rp + cand.last_donation_rp
    last_donation_rp := cand.last_donation_rp
    last_message := cand.last_message
    last_time := cand.last_time }

/-- The `VALUES` row of the insert: both `total_rp` and
`last_donation_rp` are the incoming amount. -/
def candRow (lookup : String → Option RobloxInfo) (st : Store) (now : String)
    (p : Payload) : Row :=
  { donor_key := donorKeyOf p
    roblox_username := (robloxToStore lookup st p).1
    roblox_display_name := (robloxToStore lookup st p).2
    bagibagi_name := bagibagiNameOf p
    total_rp := amountOf p
    last_donation_rp := amountOf p
    last_message := lastMsgOf p
    last_time := lastTimeOf now p }

/-- `INSERT … ON CONFLICT (donor_key) DO UPDATE` on the table: update the
(unique) conflicting row in place, else append the new row. -/
def upsertList (cand : Row) : List Row → List Row
  | [] => [cand]
  | r :: rest =>
      if r.donor_key = cand.donor_key then mergeRow r cand :: rest
      else r :: upsertList cand rest

/-- Model of `upsertDonation(payload)`: the updated table together with
the `RETURNING *` row. -/
def upsertDonation (lookup : String → Option RobloxInfo) (st : Store)
    (p : Payload) (now : String) : Store × Row :=
  let cand := candRow lookup st now p
  (upsertList cand st,
    match cachedFor st cand.donor_key with
    | some r => mergeRow r cand
    | none => cand)

/-- Outcome of one `POST /bagibagi-webhook` request. -/
structure WebhookResult where
  status : Nat
  store : Store
  notified : Bool
deriving DecidableEq

/-- Model of the `POST /bagibagi-webhook` handler: when a token is
configured, an invalid signature over `JSON.stringify(body)` (the
serialization is the parameter `stringify`) returns 401 before any state
change; otherwise the donation is upserted and, when a Discord URL is
configured, a notification is attempted. -/
def webhookHandler (token : String) (stringify : Payload → String)
    (lookup : String → Option RobloxInfo) (discord : Bool) (st : Store)
    (p : Payload) (sig : String) (now : String) : WebhookResult :=
  if token ≠ "" ∧ verifyBagibagiSignature token (stringify p) sig = false then
    { status := 401, store := st, notified := false }
  else
    { status := 200, store := (upsertDonation lookup st p now).1, notified := discord }

/-- Model of `GET /roblox/get-player-total/:username`: first row whose
`roblox_username` equals the parameter, else the row with donor key
`user:<username>`, else a total of zero. -/
def getPlayerTotal (st : Store) (username : String) : String × Int :=
  match List.find? (fun r => r.roblox_username = some username) st with
  | some r => (username, r.total_rp)
  | none =>
      match List.find? (fun r => r.donor_key = "user:" ++ username) st with
      | some r => (username, r.total_rp)
      | none => (username, 0)

/-- Modelled from the spec: `server.js` contains no delivery queue and no
poll endpoint; §4.4 specifies an in-memory ordered sequence whose
`enqueue(item)` appends. -/
def enqueue (q : List String) (x : String) : List String := q ++ [x]

/-- Modelled from the spec: §4.4's `drainAll()` atomically returns the
full current contents and resets the sequence to empty. -/
def drainAll (q : List String) : List String × List String := (q, [])

/-- An operation on the delivery queue: an enqueue or a drain. -/
inductive QOp where
  | enq : String → QOp
  | drain : QOp
deriving DecidableEq

/-- One queue step, accumulating the list of drain results. -/
def queueStep (s : List String × List (List String)) (op : QOp) :
    List String × List (List String) :=
  match op with
  | QOp.enq x => (enqueue s.1 x, s.2)
  | QOp.drain =>
      let d := drainAll s.1
      (d.2, s.2 ++ [d.1])

/-- Run a sequence of queue operations from the empty queue. -/
def runQueue (ops : List QOp) : List String × List (List String) :=
  ops.foldl queueStep ([], [])

/-- The items enqueued by a sequence of operations, in order. -/
def enqueuedOf (ops : List QOp) : List String :=
  ops.filterMap fun op =>
    match op with
    | QOp.enq x => some x
    | QOp.drain => none

/-- The stored cumulative total for a donor key, when a row exists. -/
def totalAt (st : Store) (k : String) : Option Int :=
  (cachedFor st k).map fun r => r.total_rp

/-- The stored cumulative total for a donor key, zero when absent. -/
def totalD (st : Store) (k : String) : Int := (totalAt st k).getD 0

/-- Apply a sequence of webhook payloads to the table in order. -/
def applyAll (lookup : String → Option RobloxInfo) (now : String)
    (st : Store) (ps : List Payload) : Store :=
  ps.foldl (fun s p => (upsertDonation lookup s p now).1) st

/-- The sum of the amounts of the events that derive donor key `k`. -/
def sumFor (k : String) (ps : List Payload) : Int :=
  (ps.map fun p => if donorKeyOf p = k then amountOf p else 0).sum

/-- Concatenation of a list of drain results. -/
def concatAll (ls : List (List String)) : List String :=
  ls.foldr (fun a b => a ++ b) []

/-- A Roblox lookup that always fails, for concrete instantiations. -/
def noLookup : String → Option RobloxInfo := fun _ => none

/-- Merging preserves the row's donor key. -/
theorem mergeRow_donor_key (r cand : Row) :
    (mergeRow r cand).donor_key = r.donor_key := rfl

/-- The table lookup on an empty table. -/
theorem cachedFor_nil (k : String) : cachedFor [] k = none := rfl

/-- Unfolding the table lookup over the first row. -/
theorem cachedFor_cons (r : Row) (rest : Store) (k : String) :
    cachedFor (r :: rest) k =
      if r.donor_key = k then some r else cachedFor rest k := by
  by_cases hk : r.donor_key = k
  · rw [if_pos hk]; exact List.find?_cons_of_pos _ (by simp [hk])
  · rw [if_neg hk]; exact List.find?_cons_of_neg _ (by simp [hk])

/-- Upserting a candidate makes its key's row the merge with the
previously found row, or the candidate itself when none existed. -/
theorem cachedFor_upsertList (cand : Row) (st : Store) :
    cachedFor (upsertList cand st) cand.donor_key =
      some (match cachedFor st cand.donor_key with
            | some r => mergeRow r cand
            | none => cand) := by
  induction st with
  | nil => simp [upsertList, cachedFor_cons, cachedFor_nil]
  | cons r rest ih =>
      by_cases hr : r.donor_key = cand.donor_key
      · simp [upsertList, hr, cachedFor_cons, mergeRow_donor_key]
      · simp [upsertList, hr, cachedFor_cons, ih]

/-- Upserting a candidate leaves every other key's row unchanged. -/
theorem cachedFor_upsertList_ne (cand : Row) (st : Store) (k : String)
    (h : k ≠ cand.donor_key) :
    cachedFor (upsertList cand st) k = cachedFor st k := by
  have h' : ¬ cand.donor_key = k := fun hh => h hh.symm
  induction st with
  | nil => simp [upsertList, cachedFor_cons, cachedFor_nil, h']
  | cons r rest ih =>
      by_cases hr : r.donor_key = cand.donor_key
      · have hk : ¬ r.donor_key = k := fun hh => h' (hr.symm.trans hh)
        simp [upsertList, hr, cachedFor_cons, mergeRow_donor_key, hk, h']
      · simp [upsertList, hr, cachedFor_cons, ih]

/-- The stored total after one `upsertDonation`: the derived key's total
grows by the incoming amount (from zero when the row is new); every
other key's total is untouched. -/
theorem totalAt_upsertDonation (lookup : String → Option RobloxInfo)
    (st : Store) (p : Payload) (now : String) (k : String) :
    totalAt (upsertDonation lookup st p now).1 k =
      if donorKeyOf p = k then some (totalD st k + amountOf p)
      else totalAt st k := by
  by_cases hk : donorKeyOf p = k
  · subst hk
    have hck : (candRow lookup st now p).donor_key = donorKeyOf p := rfl
    simp only [upsertDonation, totalAt, if_pos rfl]
    rw [← hck, cachedFor_upsertList]
    cases hc : cachedFor st (candRow lookup st now p).donor_key with
    | none => simp [totalD, totalAt, hck ▸ hc, candRow]
    | some r => simp [totalD, totalAt, hck ▸ hc, mergeRow, candRow]
  · simp only [upsertDonation, totalAt, if_neg hk]
    rw [cachedFor_upsertList_ne]
    exact fun hh => hk (hh.symm)

/-- The defaulted total after one `upsertDonation`. -/
theorem totalD_upsertDonation (lookup : String → Option RobloxInfo)
    (st : Store) (p : Payload) (now : String) (k : String) :
    totalD (upsertDonation lookup st p now).1 k =
      totalD st k + (if donorKeyOf p = k then amountOf p else 0) := by
  by_cases hk : donorKeyOf p = k <;>
    simp [totalD, totalAt_upsertDonation, hk]

/-- Unfolding one step of `applyAll`. -/
theorem applyAll_cons (lookup : String → Option RobloxInfo) (now : String)
    (st : Store) (p : Payload) (ps : List Payload) :
    applyAll lookup now st (p :: ps) =
      applyAll lookup now (upsertDonation lookup st p now).1 ps := rfl

/-- The stored total after a batch equals the prior total plus the sum
of the batch's amounts for that key, whatever the interleaved events for
other keys do. -/
theorem totalD_applyAll (lookup : String → Option RobloxInfo) (now : String)
    (k : String) : ∀ ps st, totalD (applyAll lookup now st ps) k =
      totalD st k + sumFor k ps := by
  intro ps
  induction ps with
  | nil => intro st; simp [applyAll, sumFor]
  | cons p rest ih =>
      intro st
      rw [applyAll_cons, ih, totalD_upsertDonation]
      simp [sumFor]
      ring

/-- A batch of non-negative amounts contributes a non-negative sum. -/
theorem sumFor_nonneg (k : String) (ps : List Payload)
    (h : ∀ q ∈ ps, 0 ≤ amountOf q) : 0 ≤ sumFor k ps := by
  induction ps with
  | nil => simp [sumFor]
  | cons p rest ih =>
      have hp := h p (List.mem_cons_self p rest)
      have hr := ih fun q hq => h q (List.mem_cons_of_mem p hq)
      simp only [sumFor, List.map_cons, List.sum_cons]
      have : (0 : Int) ≤ if donorKeyOf p = k then amountOf p else 0 := by
        split <;> simp [hp]
      exact add_nonneg this hr

/-- Big-endian serialization produces exactly `k` bytes. -/
theorem length_natToBytesBE (k n : Nat) : (natToBytesBE k n).length = k := by
  simp [natToBytesBE]

/-- The serialized digest is exactly 32 bytes. -/
theorem length_digestBytes (st : Hash8) : (digestBytes st).length = 32 := by
  simp [digestBytes, length_natToBytesBE]

/-- SHA-256 always produces a 32-byte digest. -/
theorem length_sha256Bytes (msg : List Nat) : (sha256Bytes msg).length = 32 := by
  simp [sha256Bytes, length_digestBytes]

/-- Hex rendering uses two characters per byte. -/
theorem length_hexOfBytes (bs : List Nat) :
    (hexOfBytes bs).length = 2 * bs.length := by
  induction bs with
  | nil => simp [hexOfBytes]
  | cons b bs ih => simp [hexOfBytes, ih]; ring

/-- HMAC-SHA256 always produces a 32-byte digest. -/
theorem length_hmacSha256 (key msg : List Nat) :
    (hmacSha256 key msg).length = 32 := by
  simp [hmacSha256, length_sha256Bytes]

/-- The hex HMAC digest is always 64 characters long. -/
theorem length_hmacSha256Hex (key msg : String) :
    (hmacSha256Hex key msg).length = 64 := by
  simp [hmacSha256Hex, String.length, length_hexOfBytes, length_hmacSha256]

/-- The hex HMAC digest is never the empty string. -/
theorem hmacSha256Hex_ne_empty (key msg : String) :
    hmacSha256Hex key msg ≠ "" := by
  intro h
  have h64 := length_hmacSha256Hex key msg
  rw [h] at h64
  simp at h64

/-- With a configured token, an empty signature is always rejected. -/
theorem verify_rejects_empty_sig (token body : String) (h : token ≠ "") :
    verifyBagibagiSignature token body "" = false := by
  simp [verifyBagibagiSignature, h, hmacSha256Hex_ne_empty]

/-- A webhook body carrying no fields at all. -/
def pNone : Payload :=
  { transaction_id := none, name := none, bagibagi_name := none,
    amount := none, message := none, created_at := none, donor_key := none }

/-- C2: with a configured secret, signature verification accepts a
(payload, signature) pair exactly when the signature is the hex-encoded
HMAC-SHA256 of the payload under the secret; an empty (missing)
signature is rejected, and a signature whose length differs from the
64-character digest is rejected (the comparison is total, so nothing is
thrown). -/
theorem signature_verification_iff_hmac (token payload sig : String)
    (h : token ≠ "") :
    (verifyBagibagiSignature token payload sig = true ↔
      sig = hmacSha256Hex token payload) ∧
    verifyBagibagiSignature token payload "" = false ∧
    (sig.length ≠ (hmacSha256Hex token payload).length →
      verifyBagibagiSignature token payload sig = false) := by
  refine ⟨?_, verify_rejects_empty_sig token payload h, ?_⟩
  · simp only [verifyBagibagiSignature, if_neg h, beq_iff_eq]
    exact eq_comm
  · intro hlen
    simp only [verifyBagibagiSignature, if_neg h, beq_eq_false_iff_ne, ne_eq]
    intro heq
    exact hlen (congrArg String.length heq.symm)

/-- Witness for C2: the digest computed under the secret is accepted. -/
theorem signature_verification_iff_hmac_witness :
    verifyBagibagiSignature "secret" "payload"
      (hmacSha256Hex "secret" "payload") = true :=
  (signature_verification_iff_hmac "secret" "payload"
    (hmacSha256Hex "secret" "payload") (by decide)).1.mpr rfl

/-- C7: with a configured token, a webhook request whose signature fails
verification is answered 401 with the table untouched and no
notification attempted. -/
theorem invalid_signature_rejected (token : String)
    (stringify : Payload → String) (lookup : String → Option RobloxInfo)
    (discord : Bool) (st : Store) (p : Payload) (sig now : String)
    (h1 : token ≠ "")
    (h2 : verifyBagibagiSignature token (stringify p) sig = false) :
    webhookHandler token stringify lookup discord st p sig now =
      { status := 401, store := st, notified := false } := by
  simp [webhookHandler, h1, h2]

/-- Witness for C7: a concrete unsigned request is rejected statelessly. -/
theorem invalid_signature_rejected_witness :
    webhookHandler "secret" (fun _ => "body") noLookup true [] pNone "" "t" =
      { status := 401, store := [], notified := false } :=
  invalid_signature_rejected "secret" (fun _ => "body") noLookup true [] pNone
    "" "t" (by decide) (verify_rejects_empty_sig "secret" "body" (by decide))

/-- C9: with no token configured the handler never consults the
verifier: every request proceeds to the upsert and a 200 response,
although the verifier itself would have returned false on every input. -/
theorem no_token_skips_verification (stringify : Payload → String)
    (lookup : String → Option RobloxInfo) (discord : Bool) (st : Store)
    (p : Payload) (sig now : String) :
    webhookHandler "" stringify lookup discord st p sig now =
      { status := 200, store := (upsertDonation lookup st p now).1,
        notified := discord } ∧
    verifyBagibagiSignature "" (stringify p) sig = false := by
  constructor
  · simp [webhookHandler]
  · simp [verifyBagibagiSignature]

/-- The §8 scenario payload: Bob donates 100 thanking carol. -/
def pCarol : Payload :=
  { transaction_id := some "t1", name := some "Bob", bagibagi_name := none,
    amount := some 100, message := some "thanks @carol!", created_at := none,
    donor_key := none }

/-- C1: the first accepted event for a donor key inserts a row whose
total is that event's amount; each further event for the key adds its
amount to the stored total; hence over any batch the stored total grows
by exactly the sum of the batch's amounts for that key, and with
non-negative amounts it never decreases. -/
theorem upsert_total_accumulates (lookup : String → Option RobloxInfo)
    (now : String) (st : Store) (p : Payload) (ps : List Payload)
    (k : String) :
    (totalAt st (donorKeyOf p) = none →
      totalAt (upsertDonation lookup st p now).1 (donorKeyOf p) =
        some (amountOf p)) ∧
    (∀ t : Int, totalAt st (donorKeyOf p) = some t →
      totalAt (upsertDonation lookup st p now).1 (donorKeyOf p) =
        some (t + amountOf p)) ∧
    totalD (applyAll lookup now st ps) k = totalD st k + sumFor k ps ∧
    ((∀ q ∈ ps, 0 ≤ amountOf q) →
      totalD st k ≤ totalD (applyAll lookup now st ps) k) := by
  refine ⟨?_, ?_, totalD_applyAll lookup now k ps st, ?_⟩
  · intro h0
    rw [totalAt_upsertDonation, if_pos rfl, totalD, h0]
    simp
  · intro t ht
    rw [totalAt_upsertDonation, if_pos rfl, totalD, ht]
    simp
  · intro h
    rw [totalD_applyAll]
    have := sumFor_nonneg k ps h
    omega

/-- Witness for C1: from an empty table, the scenario event stores 100
under `user:carol`, and two copies of it stack to 200. -/
theorem upsert_total_accumulates_witness :
    totalAt (upsertDonation noLookup [] pCarol "t").1 (donorKeyOf pCarol) =
      some 100 ∧
    totalD (applyAll noLookup "t" [] [pCarol, pCarol]) (donorKeyOf pCarol) =
      200 ∧
    totalD ([] : Store) (donorKeyOf pCarol) ≤
      totalD (applyAll noLookup "t" [] [pCarol, pCarol]) (donorKeyOf pCarol) :=
  ⟨(upsert_total_accumulates noLookup "t" [] pCarol [pCarol, pCarol]
      (donorKeyOf pCarol)).1 rfl,
   ((upsert_total_accumulates noLookup "t" [] pCarol [pCarol, pCarol]
      (donorKeyOf pCarol)).2.2.1).trans (by decide),
   (upsert_total_accumulates noLookup "t" [] pCarol [pCarol, pCarol]
      (donorKeyOf pCarol)).2.2.2 (by decide)⟩

/-- An existing row for the merge-policy witness. -/
def rowBob : Row :=
  { donor_key := "user:bob", roblox_username := some "bob",
    roblox_display_name := some "Bobby", bagibagi_name := some "OldName",
    total_rp := 10, last_donation_rp := 10, last_message := none,
    last_time := "t0" }

/-- A follow-up donation mentioning bob with no label of its own. -/
def pBob : Payload :=
  { transaction_id := some "t2", name := none, bagibagi_name := none,
    amount := some 5, message := some "@bob hi", created_at := none,
    donor_key := none }

/-- C5: updating an existing row overwrites the username, display-name
and label fields only when the candidate value is non-null; a null
candidate leaves the stored value unchanged, a non-null candidate
replaces it. -/
theorem upsert_non_null_overwrite (lookup : String → Option RobloxInfo)
    (st : Store) (p : Payload) (now : String) (r : Row)
    (h : cachedFor st (donorKeyOf p) = some r) :
    ((candRow lookup st now p).roblox_username = none →
      (upsertDonation lookup st p now).2.roblox_username =
        r.roblox_username) ∧
    (∀ v, (candRow lookup st now p).roblox_username = some v →
      (upsertDonation lookup st p now).2.roblox_username = some v) ∧
    ((candRow lookup st now p).roblox_display_name = none →
      (upsertDonation lookup st p now).2.roblox_display_name =
        r.roblox_display_name) ∧
    (∀ v, (candRow lookup st now p).roblox_display_name = some v →
      (upsertDonation lookup st p now).2.roblox_display_name = some v) ∧
    ((candRow lookup st now p).bagibagi_name = none →
      (upsertDonation lookup st p now).2.bagibagi_name = r.bagibagi_name) ∧
    (∀ v, (candRow lookup st now p).bagibagi_name = some v →
      (upsertDonation lookup st p now).2.bagibagi_name = some v) := by
  have hret : (upsertDonation lookup st p now).2 =
      mergeRow r (candRow lookup st now p) := by
    simp only [upsertDonation]
    rw [show (candRow lookup st now p).donor_key = donorKeyOf p from rfl, h]
  refine ⟨?_, ?_, ?_, ?_, ?_, ?_⟩ <;>
    first
      | (intro hc; rw [hret]; simp [mergeRow, coalesce, hc])
      | (intro v hc; rw [hret]; simp [mergeRow, coalesce, hc])

/-- Witness for C5: a null label candidate preserves the stored label
while the non-null username candidate replaces the stored username. -/
theorem upsert_non_null_overwrite_witness :
    (upsertDonation noLookup [rowBob] pBob "t").2.bagibagi_name =
      some "OldName" ∧
    (upsertDonation noLookup [rowBob] pBob "t").2.roblox_username =
      some "bob" :=
  ⟨(upsert_non_null_overwrite noLookup [rowBob] pBob "t" rowBob
      rfl).2.2.2.2.1 rfl,
   (upsert_non_null_overwrite noLookup [rowBob] pBob "t" rowBob
      rfl).2.1 "bob" rfl⟩

/-- Concatenation distributes over appending drain histories. -/
theorem concatAll_append (xs ys : List (List String)) :
    concatAll (xs ++ ys) = concatAll xs ++ concatAll ys := by
  induction xs with
  | nil => simp [concatAll]
  | cons a xs ih => simp [concatAll] at ih ⊢; simp [ih, List.append_assoc]

/-- Invariant of the queue trace: the drains so far, then the pending
queue, spell out exactly the initial state plus everything enqueued. -/
theorem runQueue_invariant : ∀ (ops : List QOp) (q0 : List String)
    (ds0 : List (List String)),
    concatAll (ops.foldl queueStep (q0, ds0)).2 ++
      (ops.foldl queueStep (q0, ds0)).1 =
    concatAll ds0 ++ q0 ++ enqueuedOf ops := by
  intro ops
  induction ops with
  | nil => intro q0 ds0; simp [enqueuedOf]
  | cons op rest ih =>
      intro q0 ds0
      cases op with
      | enq x =>
          simp only [List.foldl_cons, queueStep, enqueue]
          rw [ih]
          simp [enqueuedOf, List.append_assoc]
      | drain =>
          simp only [List.foldl_cons, queueStep, drainAll]
          rw [ih, concatAll_append]
          simp [enqueuedOf, concatAll, List.append_assoc]

/-- C6: over any operation sequence the drains partition the enqueued
items in order with no loss or duplication (what has been drained plus
what is still pending is exactly what was enqueued), and two drains in
a row return the whole buffer and then the empty list. -/
theorem queue_drains_exactly_once (ops : List QOp) :
    concatAll (runQueue ops).2 ++ (runQueue ops).1 = enqueuedOf ops ∧
    runQueue (ops ++ [QOp.drain, QOp.drain]) =
      ([], (runQueue ops).2 ++ [(runQueue ops).1, []]) := by
  constructor
  · have hinv := runQueue_invariant ops [] []
    simpa [runQueue, concatAll] using hinv
  · simp [runQueue, List.foldl_append, queueStep, drainAll]

/-- A donation whose message mentions a capitalised handle. -/
def pMention : Payload :=
  { transaction_id := some "t3", name := some "Dana", bagibagi_name := none,
    amount := some 7, message := some "hi @Alice", created_at := none,
    donor_key := none }

/-- The same donation with the handle in lower case. -/
def pMentionLower : Payload :=
  { transaction_id := some "t4", name := some "Dana", bagibagi_name := none,
    amount := some 7, message := some "hi @alice", created_at := none,
    donor_key := none }

/-- The lowercasing the specification's donor-key and fallback rules
describe, written structurally so that it evaluates in the kernel
(it agrees with `String.toLower`). -/
def lowerStr (s : String) : String := String.mk (s.data.map Char.toLower)

/-- Counterexample to C3: the code builds the donor key from the handle
verbatim, without lowercasing, so `@Alice` and `@alice` land on
different keys. -/
theorem donor_key_not_lowercased :
    extractAtUsername (lastMsgOf pMention) = some "Alice" ∧
    donorKeyOf pMention = "user:Alice" ∧
    lowerStr "Alice" = "alice" ∧
    donorKeyOf pMention ≠ "user:" ++ lowerStr "Alice" ∧
    donorKeyOf pMention ≠ donorKeyOf pMentionLower := by decide

/-- C3 (amended): the donor key is `user:` followed by the extracted
handle exactly as written, so handles differing in case derive
different donor keys. -/
theorem donor_key_preserves_handle_case (p q : Payload) (u v : String)
    (hu : extractAtUsername (lastMsgOf p) = some u)
    (hv : extractAtUsername (lastMsgOf q) = some v) :
    donorKeyOf p = "user:" ++ u ∧
    (u ≠ v → donorKeyOf p ≠ donorKeyOf q) := by
  have hp : donorKeyOf p = "user:" ++ u := by simp only [donorKeyOf, hu]
  have hq : donorKeyOf q = "user:" ++ v := by simp only [donorKeyOf, hv]
  refine ⟨hp, fun hne heq => hne ?_⟩
  rw [hp, hq] at heq
  have hdata := congrArg String.data heq
  simp only [String.data_append] at hdata
  exact String.ext (List.append_cancel_left hdata)

/-- Witness for amended C3 at the concrete mentions. -/
theorem donor_key_preserves_handle_case_witness :
    donorKeyOf pMention = "user:" ++ "Alice" ∧
    donorKeyOf pMention ≠ donorKeyOf pMentionLower :=
  ⟨(donor_key_preserves_handle_case pMention pMentionLower "Alice" "alice"
      rfl rfl).1,
   (donor_key_preserves_handle_case pMention pMentionLower "Alice" "alice"
      rfl rfl).2 (by decide)⟩

/-- The donor key the specification describes for handle-less events:
the display name lowercased with whitespace turned to underscores (on
the single-space input below, collapsing runs would give the same). -/
def spec_displayNameKey (name : String) : String :=
  String.mk (name.data.map fun c => if c.isWhitespace then '_' else c.toLower)

/-- A handle-less donation with a display name and a transaction id. -/
def pJohn : Payload :=
  { transaction_id := some "tx1", name := some "John Doe",
    bagibagi_name := none, amount := some 100, message := none,
    created_at := none, donor_key := none }

/-- Counterexample to C4: for a handle-less event the code keys on the
transaction id, not on any normalization of the display name. -/
theorem fallback_key_ignores_display_name :
    extractAtUsername (lastMsgOf pJohn) = none ∧
    donorKeyOf pJohn = "bagibagi:tx1" ∧
    spec_displayNameKey "John Doe" = "john_doe" ∧
    donorKeyOf pJohn ≠ spec_displayNameKey "John Doe" ∧
    donorKeyOf pJohn ≠ "user:" ++ spec_displayNameKey "John Doe" := by decide

/-- C4 (amended): for every handle-less event the donor key is the
body's truthy `donor_key` field if any, else `bagibagi:` followed by
the rendered transaction id — never a normalization of the display
name. -/
theorem fallback_key_from_body_fields (p : Payload)
    (h : extractAtUsername (lastMsgOf p) = none) :
    donorKeyOf p = (match jsOr p.donor_key none with
                    | some d => d
                    | none => "bagibagi:" ++ txidString p) := by
  simp only [donorKeyOf, h]

/-- Witness for amended C4 at the concrete handle-less event. -/
theorem fallback_key_from_body_fields_witness :
    donorKeyOf pJohn = "bagibagi:tx1" :=
  (fallback_key_from_body_fields pJohn rfl).trans (by decide)

/-- A body whose `donor_key` field is present but empty. -/
def pEmptyDK : Payload :=
  { transaction_id := none, name := none, bagibagi_name := none,
    amount := none, message := none, created_at := none,
    donor_key := some "" }

/-- Counterexample to C10: a present-but-empty `donor_key` is falsy in
JavaScript, so it is not taken verbatim — the event falls through to
`bagibagi:undefined`. -/
theorem donor_key_empty_string_not_verbatim :
    pEmptyDK.donor_key = some "" ∧
    extractAtUsername (lastMsgOf pEmptyDK) = none ∧
    donorKeyOf pEmptyDK = "bagibagi:undefined" ∧
    donorKeyOf pEmptyDK ≠ "" := by decide

/-- C10 (amended): for handle-less events a present non-empty
`donor_key` is used verbatim; otherwise the key is `bagibagi:` plus the
transaction id, which renders as `bagibagi:undefined` when the id is
also absent. -/
theorem donor_key_fallback_chain (p : Payload)
    (h : extractAtUsername (lastMsgOf p) = none) :
    (∀ d, p.donor_key = some d → d ≠ "" → donorKeyOf p = d) ∧
    (jsOr p.donor_key none = none → ∀ t, p.transaction_id = some t →
      donorKeyOf p = "bagibagi:" ++ t) ∧
    (jsOr p.donor_key none = none → p.transaction_id = none →
      donorKeyOf p = "bagibagi:undefined") := by
  refine ⟨?_, ?_, ?_⟩
  · intro d hd hne
    simp only [donorKeyOf, h, jsOr, hd, if_neg hne]
  · intro hj t ht
    simp only [donorKeyOf, h, hj, txidString, ht, Option.getD_some]
  · intro hj ht
    simp only [donorKeyOf, h, hj, txidString, ht, Option.getD_none]
    decide

/-- Witness for amended C10: the fully empty body keys on
`bagibagi:undefined`. -/
theorem donor_key_fallback_chain_witness :
    donorKeyOf pNone = "bagibagi:undefined" :=
  (donor_key_fallback_chain pNone rfl).2.2 rfl rfl

/-- The per-identity total the specification describes: match by stored
username, else by the donor key built from the LOWERCASED query. -/
def spec_totalFor (st : Store) (username : String) : Int :=
  match List.find? (fun r => r.roblox_username = some username) st with
  | some r => r.total_rp
  | none =>
      match List.find? (fun r => r.donor_key = "user:" ++ lowerStr username) st with
      | some r => r.total_rp
      | none => 0

/-- A stored row keyed by the lowercased handle. -/
def rowAlice : Row :=
  { donor_key := "user:alice", roblox_username := none,
    roblox_display_name := none, bagibagi_name := some "Alice",
    total_rp := 100, last_donation_rp := 100, last_message := none,
    last_time := "t0" }

/-- Counterexample to C8: the endpoint's fallback uses the queried
username verbatim, so the case-differing query misses the row the
specification's lowercased fallback would find. -/
theorem get_player_total_no_lowercase_fallback :
    getPlayerTotal [rowAlice] "Alice" = ("Alice", 0) ∧
    spec_totalFor [rowAlice] "Alice" = 100 ∧
    (getPlayerTotal [rowAlice] "Alice").2 ≠ spec_totalFor [rowAlice] "Alice" := by
  decide

/-- C8 (amended): the lookup returns the first row whose username field
equals the query; failing that, the row whose donor key is `user:`
followed by the query exactly as given; failing that, a total of zero
as a successful response. -/
theorem get_player_total_exact_fallback (st : Store) (username : String) :
    (∀ row, List.find? (fun r => r.roblox_username = some username) st =
        some row → getPlayerTotal st username = (username, row.total_rp)) ∧
    (List.find? (fun r => r.roblox_username = some username) st = none →
      ∀ row, List.find? (fun r => r.donor_key = "user:" ++ username) st =
        some row → getPlayerTotal st username = (username, row.total_rp)) ∧
    (List.find? (fun r => r.roblox_username = some username) st = none →
      List.find? (fun r => r.donor_key = "user:" ++ username) st = none →
      getPlayerTotal st username = (username, 0)) := by
  refine ⟨?_, ?_, ?_⟩
  · intro row hr
    simp [getPlayerTotal, hr]
  · intro h1 row hr
    simp [getPlayerTotal, h1, hr]
  · intro h1 h2
    simp [getPlayerTotal, h1, h2]

/-- Witness for amended C8: an unknown identity yields zero, not an
error. -/
theorem get_player_total_exact_fallback_witness :
    getPlayerTotal [] "bob" = ("bob", 0) :=
  (get_player_total_exact_fallback [] "bob").2.2 rfl rfl
